import Mathlib

/-!
Verification development for the `flow-lib` execution context
(`src/lib/flow-lib/src/context.rs`): a shallow embedding of the service
abstraction (`TowerClient`), the three capability modules (`get_jwt`,
`signer`, `execute`), and the `Context` composition root, together with
theorems settling the specified properties.

Machine integers: `usize` and `u32` counters are embedded as `Nat`
(both are unsigned in the source and no overflowing arithmetic occurs:
the only arithmetic is `self.0 - 1` guarded by `self.0 > 0`).
Fallible calls are embedded as `Except`.
-/

/-- `uuid::Uuid` embedded as `Nat`; `Uuid::nil()` is `0`. -/
abbrev Uuid := Nat

/-- `uuid::Uuid::nil()`. -/
def Uuid.nil : Uuid := 0

abbrev UserId := Uuid
abbrev FlowRunId := Uuid
abbrev NodeId := Uuid

/-- `solana_sdk::pubkey::Pubkey` embedded as an opaque numeric identity. -/
abbrev Pubkey := Nat

/-- `solana_sdk::signature::Signature` embedded as an opaque numeric value. -/
abbrev Signature := Nat

/-- `bytes::Bytes` embedded as a list of byte values. -/
abbrev Bytes := List Nat

/-- `std::time::Duration` embedded as a number of time units. -/
abbrev Duration := Nat

/-- Modelled from the spec: `crate::solana::Instructions` is repository code
not under `src/`; the spec describes it as an ordered batch of low-level
chain operations, embedded as an opaque ordered list. -/
abbrev Instructions := List Nat

/-- `value::Map` (node-produced named output values) embedded as an
association list. -/
abbrev ValueMap := List (String × String)

/-- Character-list prefix test used to embed Rust `str::contains`. -/
def charsStart : List Char → List Char → Bool
  | [], _ => true
  | _ :: _, [] => false
  | a :: as, b :: bs => a == b && charsStart as bs

/-- Character-list substring test used to embed Rust `str::contains`. -/
def charsContain (pat : List Char) : List Char → Bool
  | [] => charsStart pat []
  | c :: rest => charsStart pat (c :: rest) || charsContain pat rest

/-- Rust `s.contains(pat)`: `pat` occurs as a contiguous substring of `s`. -/
def strContains (s pat : String) : Bool :=
  charsContain pat.toList s.toList

/-- Modelled from the spec: `crate::utils::TowerClient` (the generic
`ServiceHandle`) is repository code not under `src/`.  Per the spec it is a
backpressure-bounded async call gateway with two constructors:
`unimplemented`, which fails every call with a fixed configured error and
does no work, and `from_service`, which wraps a concrete handler and
enforces a concurrency bound `size`.  The handler is embedded as a pure
function from request to `Except`-result; the admission budget is recorded
as the `size` field (its dynamic semantics is modelled separately as the
admission-state machine `AdmStep`/`AdmReach`). -/
inductive TowerClient (Req Resp Err : Type) where
  | unimplemented (err : Err)
  | fromService (handle : Req → Except Err Resp) (size : Nat)

/-- A complete `ready().await?.call(req).await` round trip on a handle:
the `unimplemented` handle fails with its configured error; a
`from_service` handle runs its wrapped handler. -/
def TowerClient.call {Req Resp Err : Type} :
    TowerClient Req Resp Err → Req → Except Err Resp
  | .unimplemented e, _ => .error e
  | .fromService h _, r => h r

/-- `Clone` on a handle: clones share the same underlying channel and
admission budget (the clone is the same handle, not a fresh budget). -/
def TowerClient.clone {Req Resp Err : Type} (svc : TowerClient Req Resp Err) :
    TowerClient Req Resp Err := svc

/-- The configured concurrency bound of a handle (`0` for the
`unimplemented` stub, which performs no work). -/
def TowerClient.size {Req Resp Err : Type} : TowerClient Req Resp Err → Nat
  | .unimplemented _ => 0
  | .fromService _ s => s

namespace get_jwt

/-- `get_jwt::Request`. -/
structure Request where
  user_id : UserId
deriving DecidableEq

/-- `get_jwt::Response`. -/
structure Response where
  access_token : String
deriving DecidableEq

/-- `get_jwt::Error`.  `Arc<BoxError>` and `Arc<actix::MailboxError>`
payloads are embedded as their message strings. -/
inductive Error where
  | NotAllowed
  | UserNotFound
  | WrongRecipient
  | Worker (msg : String)
  | MailBox (msg : String)
  | Supabase (error : String) (error_description : String)
  | Other (msg : String)
deriving DecidableEq

/-- `get_jwt::Error::other`. -/
def Error.other (msg : String) : Error := Error.Other msg

/-- `get_jwt::Svc`. -/
abbrev Svc := TowerClient Request Response Error

/-- `get_jwt::unimplemented_svc`. -/
def unimplemented_svc : Svc :=
  TowerClient.unimplemented (Error.other "unimplemented")

/-- `get_jwt::not_allowed`. -/
def not_allowed : Svc :=
  TowerClient.unimplemented Error.NotAllowed

/-- `get_jwt::RetryPolicy` — a tuple struct holding the remaining attempt
budget (`usize`, embedded as `Nat`). -/
structure RetryPolicy where
  budget : Nat
deriving DecidableEq

/-- `impl Default for RetryPolicy`: budget 1. -/
def RetryPolicy.default : RetryPolicy := ⟨1⟩

/-- `RetryPolicy::retry` (the `tower::retry::Policy` impl): retry only on a
`Supabase` error whose `error_description` contains `"Refresh Token"` while
the budget is positive, returning the policy with budget decremented. -/
def RetryPolicy.retry (p : RetryPolicy) (_req : Request)
    (result : Except Error Response) : Option RetryPolicy :=
  match result with
  | .error (.Supabase _ error_description) =>
    if strContains error_description "Refresh Token" = true ∧ 0 < p.budget then
      some ⟨p.budget - 1⟩
    else
      none
  | _ => none

/-- `RetryPolicy::clone_request`: always resubmits the identical request. -/
def RetryPolicy.clone_request (_p : RetryPolicy) (req : Request) :
    Option Request := some req

/-- Whether a result is the transient failure the retry policy matches:
a `Supabase` error whose description contains `"Refresh Token"`. -/
def isRefreshTokenErr : Except Error Response → Bool
  | .error (.Supabase _ d) => strContains d "Refresh Token"
  | _ => false

theorem retry_budget_lt {p p' : RetryPolicy} {req : Request}
    {res : Except Error Response} (h : p.retry req res = some p') :
    p'.budget < p.budget := by
  unfold RetryPolicy.retry at h
  split at h
  · split at h
    · rename_i hc
      cases h
      exact Nat.sub_lt hc.2 Nat.one_pos
    · exact absurd h (by simp)
  · exact absurd h (by simp)

/-- The retry loop of `tower::retry::Retry` driving `RetryPolicy`: issue the
request; if the policy returns a new policy state, resubmit the cloned
(identical) request under it; otherwise return the result.  The service
behaviour is a pure function of the request, matching the embedding of
`TowerClient` handlers.  Returns the final result together with the total
number of attempts made. -/
def runWithRetry (p : RetryPolicy) (svc : Request → Except Error Response)
    (req : Request) : Except Error Response × Nat :=
  match _h : p.retry req (svc req) with
  | some p' =>
    let r := runWithRetry p' svc req
    (r.1, r.2 + 1)
  | none => (svc req, 1)
termination_by p.budget
decreasing_by exact retry_budget_lt _h

end get_jwt

namespace signer

/-- `signer::Error`.  `BoxError` and `actix::MailboxError` payloads are
embedded as their message strings. -/
inductive Error where
  | Pubkey (key : String)
  | User
  | Timeout
  | Worker (msg : String)
  | MailBox (msg : String)
  | Other (msg : String)
deriving DecidableEq

/-- `signer::SignatureRequest`. -/
structure SignatureRequest where
  pubkey : Pubkey
  message : Bytes
  timeout : Duration
deriving DecidableEq

/-- `signer::SignatureResponse`. -/
structure SignatureResponse where
  signature : Signature
deriving DecidableEq

/-- `signer::Svc`. -/
abbrev Svc := TowerClient SignatureRequest SignatureResponse Error

/-- `signer::unimplemented_svc`: the configured error is
`BoxError::from("unimplemented").into()`, i.e. `Error::Other` via the
`#[from] BoxError` conversion. -/
def unimplemented_svc : Svc :=
  TowerClient.unimplemented (Error.Other "unimplemented")

end signer

/-- Modelled from the spec: `reqwest::Client` (built by `from_cfg`); its
internals are external to this core — embedded as an opaque marker. -/
structure HttpClient

/-- `reqwest::Client::new()`. -/
def HttpClient.new : HttpClient := {}

/-- `solana_client::nonblocking::rpc_client::RpcClient`, embedded by its
endpoint URL (the only datum `context.rs` feeds it). -/
structure SolanaClient where
  url : String
deriving DecidableEq

/-- `SolanaClient::new(url)`. -/
def SolanaClient.new (url : String) : SolanaClient := ⟨url⟩

/-- Modelled from the spec: the Solana-client section of the configuration
(`crate::config` is repository code not under `src/`); only the endpoint
URL is read by `context.rs`. -/
structure SolanaClientConfig where
  url : String
deriving DecidableEq

/-- Modelled from the spec: the endpoints record from configuration
(`crate::config` is repository code not under `src/`); embedded as an
opaque name-to-URL mapping. -/
abbrev Endpoints := List (String × String)

/-- Modelled from the spec: `crate::config::ContextConfig` is repository
code not under `src/`; restricted to the fields `context.rs` reads. -/
structure ContextConfig where
  solana_client : SolanaClientConfig
  environment : List (String × String)
  endpoints : Endpoints

/-- Modelled from the spec: `ContextConfig::default()`; the concrete
default values are not constrained by any claim. -/
def ContextConfig.default : ContextConfig := ⟨⟨""⟩, [], []⟩

/-- Modelled from the spec: `crate::config::client::FlowRunOrigin` is
repository code not under `src/`; only its `Interflow` variant is used by
`context.rs`. -/
inductive FlowRunOrigin where
  | Interflow (flow_run_id : FlowRunId) (node_id : NodeId) (times : Nat)
deriving DecidableEq

/-- Modelled from the spec: `crate::utils::Extensions` (the
ExtensionRegistry) is repository code not under `src/`.  Per the spec it is
an immutable type-keyed store: capability-type identities are embedded as
`Nat` keys and the stored boxed values as a dependent family `τ` over the
keys, so that distinct capability types hold values of distinct types. -/
structure Extensions (τ : Nat → Type) where
  store : List ((i : Nat) × τ i)

/-- `Extensions::default()`: the empty registry. -/
def Extensions.empty {τ : Nat → Type} : Extensions τ := ⟨[]⟩

/-- First-match dependent lookup over the registry's entries. -/
def lookupStore {τ : Nat → Type} :
    List ((i : Nat) × τ i) → (i : Nat) → Option (τ i)
  | [], _ => none
  | ⟨j, v⟩ :: rest, i =>
    if h : j = i then some (h ▸ v) else lookupStore rest i

/-- `Extensions::get::<T>()`: type-keyed lookup. -/
def Extensions.get {τ : Nat → Type} (e : Extensions τ) (i : Nat) :
    Option (τ i) :=
  lookupStore e.store i

namespace execute

/-- `execute::Request`. -/
structure Request where
  instructions : Instructions
  output : ValueMap
deriving DecidableEq

/-- `execute::Response`. -/
structure Response where
  signature : Option Signature
deriving DecidableEq

/-- `execute::Error`.  Wrapped `ClientError`/`SignerError`/`BoxError`
payloads are embedded as their message strings. -/
inductive Error where
  | Canceled
  | NotAvailable
  | TxIncomplete
  | Timeout
  | InsufficientSolanaBalance (needed : Nat) (balance : Nat)
  | TxSimFailed
  | Solana (msg : String)
  | Signer (msg : String)
  | Worker (msg : String)
  | MailBox (msg : String)
  | ChannelClosed
  | Other (msg : String)
deriving DecidableEq

/-- `execute::Error::other`. -/
def Error.other (msg : String) : Error := Error.Other msg

/-- `execute::Svc`. -/
abbrev Svc := TowerClient Request Response Error

/-- `execute::unimplemented_svc`. -/
def unimplemented_svc : Svc :=
  TowerClient.unimplemented (Error.other "unimplemented")

end execute

/-- Modelled from the spec: the behaviour of
`crate::solana::Instructions::execute` (build the transaction from the
instructions, obtain signatures via the SignerService, submit via the RPC
client, return the resulting signature) is repository code not under
`src/`; it is kept abstract as a parameter of the development. -/
abbrev InstrExec :=
  Instructions → SolanaClient → signer.Svc → Except execute.Error Signature

/-- `CommandContext`: binds a context clone to one node invocation. -/
structure CommandContext where
  svc : execute.Svc
  flow_run_id : FlowRunId
  node_id : NodeId
  times : Nat

/-- `User`. -/
structure User where
  id : UserId
deriving DecidableEq

/-- `User::new`. -/
def User.new (id : UserId) : User := ⟨id⟩

/-- `impl Default for User`: the nil identity (for testing). -/
def User.default : User := ⟨Uuid.nil⟩

/-- `Context`: the execution context composition root.  The type family
`τ` indexes the extension registry's capability types. -/
structure Context (τ : Nat → Type) where
  flow_owner : User
  started_by : User
  cfg : ContextConfig
  http : HttpClient
  solana_client : SolanaClient
  environment : List (String × String)
  endpoints : Endpoints
  extensions : Extensions τ
  command : Option CommandContext
  signer : signer.Svc
  get_jwt : get_jwt.Svc

/-- `execute::simple(ctx, size)`: the reference strategy, a `from_service`
handle of concurrency `size` whose handler executes the request's
instructions against the context's RPC client and signer, wrapping the
resulting signature in `Some`. -/
def execute.simple {τ : Nat → Type} (instrExec : InstrExec)
    (ctx : Context τ) (size : Nat) : execute.Svc :=
  TowerClient.fromService
    (fun req =>
      match instrExec req.instructions ctx.solana_client ctx.signer with
      | .ok sig => .ok ⟨some sig⟩
      | .error e => .error e)
    size

/-- `Context::from_cfg`: builds the HTTP and RPC clients from the
configuration and leaves `command` unset. -/
def Context.from_cfg {τ : Nat → Type} (cfg : ContextConfig)
    (flow_owner started_by : User) (sig_svc : signer.Svc)
    (token_svc : get_jwt.Svc) (extensions : Extensions τ) : Context τ :=
  { flow_owner := flow_owner
    started_by := started_by
    cfg := cfg
    http := HttpClient.new
    solana_client := SolanaClient.new cfg.solana_client.url
    environment := cfg.environment
    endpoints := cfg.endpoints
    extensions := extensions
    command := none
    signer := sig_svc
    get_jwt := token_svc }

/-- `impl Default for Context`: unimplemented stubs for signer and auth,
nil users, empty registry, then a `CommandContext` with nil ids and
`times = 0` bound to a `simple` ExecutionService of concurrency 1. -/
def Context.default {τ : Nat → Type} (instrExec : InstrExec) : Context τ :=
  let ctx : Context τ :=
    Context.from_cfg ContextConfig.default User.default User.default
      signer.unimplemented_svc get_jwt.unimplemented_svc Extensions.empty
  { ctx with
    command := some
      { svc := execute.simple instrExec ctx 1
        flow_run_id := Uuid.nil
        node_id := Uuid.nil
        times := 0 } }

/-- `Context::get_jwt_header`: one AuthService round trip for the flow
owner's identity, prefixing the token with `"Bearer "` on success and
propagating the typed error unchanged on failure. -/
def Context.get_jwt_header {τ : Nat → Type} (ctx : Context τ) :
    Except get_jwt.Error String :=
  match ctx.get_jwt.call { user_id := ctx.flow_owner.id } with
  | .ok r => .ok ("Bearer " ++ r.access_token)
  | .error e => .error e

/-- `Context::new_interflow_origin`. -/
def Context.new_interflow_origin {τ : Nat → Type} (ctx : Context τ) :
    Option FlowRunOrigin :=
  match ctx.command with
  | none => none
  | some c => some (.Interflow c.flow_run_id c.node_id c.times)

/-- `Context::execute`: delegate to the attached `CommandContext`'s bound
ExecutionService, or fail with `NotAvailable` when none is attached. -/
def Context.execute {τ : Nat → Type} (ctx : Context τ)
    (instructions : Instructions) (output : ValueMap) :
    Except execute.Error execute.Response :=
  match ctx.command with
  | some c => c.svc.call { instructions := instructions, output := output }
  | none => .error execute.Error.NotAvailable

/-- `Context::request_signature`: clone the signer handle and make one
round trip, returning the signature of the response. -/
def Context.request_signature {τ : Nat → Type} (ctx : Context τ)
    (pubkey : Pubkey) (message : Bytes) (timeout : Duration) :
    Except signer.Error Signature :=
  let s := ctx.signer.clone
  match s.call { pubkey := pubkey, message := message, timeout := timeout } with
  | .ok r => .ok r.signature
  | .error e => .error e

/-- `Context::get::<T>()`: extension lookup by capability type. -/
def Context.get {τ : Nat → Type} (ctx : Context τ) (i : Nat) :
    Option (τ i) :=
  ctx.extensions.get i

/-- Modelled from the spec: the dynamic admission semantics of one service
handle with concurrency bound `K` (the implementation inside
`crate::utils::TowerClient` is repository code not under `src/`).  The
state is the number of in-flight calls drawn from the handle's single
shared budget — shared by all clones, per the spec.  `acquire` is enabled
only while the in-flight count is below `K` (a caller at the bound
suspends, without error, rather than stepping); `release` is a call
completing. -/
inductive AdmStep (K : Nat) : Nat → Nat → Prop where
  | acquire (n : Nat) (h : n < K) : AdmStep K n (n + 1)
  | release (n : Nat) : AdmStep K (n + 1) n

/-- States of the admission machine reachable from the idle state. -/
inductive AdmReach (K : Nat) : Nat → Prop where
  | init : AdmReach K 0
  | step {n m : Nat} (hr : AdmReach K n) (hs : AdmStep K n m) : AdmReach K m

theorem retry_none_of_no_match (p : get_jwt.RetryPolicy)
    (req : get_jwt.Request) (res : Except get_jwt.Error get_jwt.Response)
    (h : get_jwt.isRefreshTokenErr res = false) :
    p.retry req res = none := by
  unfold get_jwt.RetryPolicy.retry
  cases res with
  | ok r => rfl
  | error e =>
    cases e with
    | Supabase a d =>
      simp only [get_jwt.isRefreshTokenErr] at h
      simp [h]
    | NotAllowed => rfl
    | UserNotFound => rfl
    | WrongRecipient => rfl
    | Worker m => rfl
    | MailBox m => rfl
    | Other m => rfl

theorem runWithRetry_const_match (e d : String)
    (hd : strContains d "Refresh Token" = true) :
    ∀ (n : Nat) (req : get_jwt.Request),
      get_jwt.runWithRetry ⟨n⟩ (fun _ => .error (.Supabase e d)) req =
        (.error (.Supabase e d), n + 1) := by
  intro n
  induction n with
  | zero =>
    intro req
    have hr : (⟨0⟩ : get_jwt.RetryPolicy).retry req
        (.error (.Supabase e d)) = none := by
      simp [get_jwt.RetryPolicy.retry]
    rw [get_jwt.runWithRetry]
    split
    · rename_i p' hp'
      rw [hr] at hp'
      cases hp'
    · rfl
  | succ k ih =>
    intro req
    have hr : (⟨k + 1⟩ : get_jwt.RetryPolicy).retry req
        (.error (.Supabase e d)) = some ⟨k⟩ := by
      simp [get_jwt.RetryPolicy.retry, hd]
    rw [get_jwt.runWithRetry]
    split
    · rename_i p' hp'
      rw [hr] at hp'
      cases hp'
      rw [ih req]
    · rename_i hp'
      rw [hr] at hp'
      cases hp'

theorem runWithRetry_const_no_match (n : Nat) (req : get_jwt.Request)
    (res : Except get_jwt.Error get_jwt.Response)
    (h : get_jwt.isRefreshTokenErr res = false) :
    get_jwt.runWithRetry ⟨n⟩ (fun _ => res) req = (res, 1) := by
  rw [get_jwt.runWithRetry]
  split
  · rename_i p' hp'
    rw [retry_none_of_no_match ⟨n⟩ req res h] at hp'
    cases hp'
  · rfl

theorem lookupStore_eq_none {τ : Nat → Type} :
    ∀ (l : List ((j : Nat) × τ j)) (i : Nat),
      (∀ p ∈ l, p.1 ≠ i) → lookupStore l i = none := by
  intro l
  induction l with
  | nil => intro i _; rfl
  | cons a rest ih =>
    intro i h
    obtain ⟨j, v⟩ := a
    have hj : j ≠ i := h ⟨j, v⟩ (List.mem_cons_self _ _)
    simp only [lookupStore]
    rw [dif_neg hj]
    exact ih i fun p hp => h p (List.mem_cons_of_mem _ hp)

theorem lookupStore_mem_nodup {τ : Nat → Type} :
    ∀ (l : List ((j : Nat) × τ j)) (i : Nat) (v : τ i),
      Sigma.mk i v ∈ l → (l.map Sigma.fst).Nodup →
      lookupStore l i = some v := by
  intro l
  induction l with
  | nil => intro i v hm _; cases hm
  | cons a rest ih =>
    intro i v hm hnd
    obtain ⟨j, w⟩ := a
    rw [List.map_cons, List.nodup_cons] at hnd
    rcases List.mem_cons.mp hm with heq | hmem
    · rw [Sigma.mk.inj_iff] at heq
      obtain ⟨hij, hvw⟩ := heq
      subst hij
      have hv : v = w := eq_of_heq hvw
      subst hv
      simp [lookupStore]
    · have hj : j ≠ i := by
        intro hji
        apply hnd.1
        show j ∈ List.map Sigma.fst rest
        subst hji
        exact List.mem_map_of_mem Sigma.fst hmem
      simp only [lookupStore]
      rw [dif_neg hj]
      exact ih i v hmem hnd.2

/-- C1: `RetryPolicy(n)` retries only on a Supabase error whose
`error_description` contains `"Refresh Token"` while budget is positive,
resubmitting the identical request with the budget decremented, so on a
persistent matching failure exactly `n` retries occur and the final error
is returned on attempt `n + 1`; a non-matching result is never retried for
any `n`; the default budget is 1. -/
theorem retry_policy_retries_exactly_n :
    get_jwt.RetryPolicy.default = ⟨1⟩ ∧
    (∀ (p : get_jwt.RetryPolicy) (req : get_jwt.Request),
      p.clone_request req = some req) ∧
    (∀ (n : Nat) (req : get_jwt.Request) (e d : String),
      strContains d "Refresh Token" = true →
      get_jwt.runWithRetry ⟨n⟩ (fun _ => .error (.Supabase e d)) req =
        (.error (.Supabase e d), n + 1)) ∧
    (∀ (n : Nat) (req : get_jwt.Request)
      (res : Except get_jwt.Error get_jwt.Response),
      get_jwt.isRefreshTokenErr res = false →
      get_jwt.runWithRetry ⟨n⟩ (fun _ => res) req = (res, 1)) :=
  ⟨rfl, fun _ _ => rfl,
   fun n req e d hd => runWithRetry_const_match e d hd n req,
   fun n req res h => runWithRetry_const_no_match n req res h⟩

theorem retry_policy_retries_exactly_n_witness :
    strContains "Invalid Refresh Token" "Refresh Token" = true ∧
    get_jwt.runWithRetry ⟨2⟩
        (fun _ => .error (.Supabase "invalid_grant" "Invalid Refresh Token"))
        ⟨0⟩ =
      (.error (.Supabase "invalid_grant" "Invalid Refresh Token"), 3) ∧
    get_jwt.runWithRetry ⟨5⟩ (fun _ => .error .NotAllowed) ⟨0⟩ =
      (.error .NotAllowed, 1) :=
  ⟨by decide,
   retry_policy_retries_exactly_n.2.2.1 2 ⟨0⟩ "invalid_grant"
     "Invalid Refresh Token" (by decide),
   retry_policy_retries_exactly_n.2.2.2 5 ⟨0⟩ (.error .NotAllowed)
     (by decide)⟩

/-- C2: with no `CommandContext` attached, `execute` fails with
`NotAvailable` and performs no chain call (the embedding is pure: nothing
else is touched); with one attached, it delegates the request to that
`CommandContext`'s bound ExecutionService and returns its result
unchanged. -/
theorem execute_not_available_or_delegates {τ : Nat → Type}
    (ctx : Context τ) (instructions : Instructions) (output : ValueMap) :
    (ctx.command = none →
      ctx.execute instructions output = .error execute.Error.NotAvailable) ∧
    (∀ c, ctx.command = some c →
      ctx.execute instructions output =
        c.svc.call { instructions := instructions, output := output }) := by
  constructor
  · intro h
    simp [Context.execute, h]
  · intro c h
    simp [Context.execute, h]

theorem execute_not_available_or_delegates_witness :
    (Context.from_cfg ContextConfig.default User.default User.default
        signer.unimplemented_svc get_jwt.unimplemented_svc
        (Extensions.empty : Extensions (fun _ => Unit))).execute [] [] =
      .error execute.Error.NotAvailable :=
  (execute_not_available_or_delegates _ [] []).1 rfl

/-- C3: `Context::default()` uses unimplemented stubs for signer and auth,
the nil-identity user for both identities, an empty registry, and attaches
a `CommandContext` with nil ids and `times = 0` bound to the `simple`
ExecutionService of concurrency 1; hence `execute` on it routes to the
simple strategy (in particular, when instruction execution succeeds it
returns the signature rather than `NotAvailable`). -/
theorem default_context_shape {τ : Nat → Type} (instrExec : InstrExec) :
    (Context.default instrExec : Context τ).flow_owner = User.default ∧
    (Context.default instrExec : Context τ).started_by = User.default ∧
    (Context.default instrExec : Context τ).signer =
      signer.unimplemented_svc ∧
    (Context.default instrExec : Context τ).get_jwt =
      get_jwt.unimplemented_svc ∧
    (Context.default instrExec : Context τ).extensions.store = [] ∧
    (Context.default instrExec : Context τ).command =
      some
        { svc :=
            execute.simple instrExec
              (Context.from_cfg ContextConfig.default User.default
                User.default signer.unimplemented_svc
                get_jwt.unimplemented_svc
                (Extensions.empty : Extensions τ)) 1
          flow_run_id := Uuid.nil
          node_id := Uuid.nil
          times := 0 } ∧
    (∀ (ins : Instructions) (out : ValueMap),
      (Context.default instrExec : Context τ).execute ins out =
        (execute.simple instrExec
          (Context.from_cfg ContextConfig.default User.default User.default
            signer.unimplemented_svc get_jwt.unimplemented_svc
            (Extensions.empty : Extensions τ)) 1).call
          { instructions := ins, output := out }) ∧
    (∀ (ins : Instructions) (out : ValueMap) (sig : Signature),
      instrExec ins (SolanaClient.new "") signer.unimplemented_svc =
        .ok sig →
      (Context.default instrExec : Context τ).execute ins out =
        .ok ⟨some sig⟩) := by
  refine ⟨rfl, rfl, rfl, rfl, rfl, rfl, fun ins out => rfl, ?_⟩
  intro ins out sig h
  simp [Context.default, Context.from_cfg, Context.execute, execute.simple,
    TowerClient.call, ContextConfig.default, h]

theorem default_context_shape_witness :
    (Context.default (fun _ _ _ => .ok 7) : Context (fun _ => Unit)).execute
        [] [] =
      .ok ⟨some 7⟩ :=
  (default_context_shape (fun _ _ _ => .ok 7)).2.2.2.2.2.2.2 [] [] 7 rfl

/-- C4: `get_jwt_header` issues the auth request for the flow owner's
identity; on success it returns exactly `"Bearer " ++ token` and on
failure it returns the typed error unchanged. -/
theorem get_jwt_header_bearer {τ : Nat → Type} (ctx : Context τ) :
    (∀ t, ctx.get_jwt.call { user_id := ctx.flow_owner.id } = .ok ⟨t⟩ →
      ctx.get_jwt_header = .ok ("Bearer " ++ t)) ∧
    (∀ e, ctx.get_jwt.call { user_id := ctx.flow_owner.id } = .error e →
      ctx.get_jwt_header = .error e) := by
  constructor
  · intro t h
    simp [Context.get_jwt_header, h]
  · intro e h
    simp [Context.get_jwt_header, h]

theorem get_jwt_header_bearer_witness :
    (Context.from_cfg ContextConfig.default User.default User.default
        signer.unimplemented_svc
        (TowerClient.fromService (fun _ => .ok ⟨"abc.def.ghi"⟩) 1)
        (Extensions.empty : Extensions (fun _ => Unit))).get_jwt_header =
      .ok "Bearer abc.def.ghi" :=
  (get_jwt_header_bearer _).1 "abc.def.ghi" rfl

/-- C5: `new_interflow_origin` returns `Some` of an `Interflow` origin
whose fields equal those of the attached `CommandContext` exactly, and
`None` when no `CommandContext` is attached (the embedding is pure, so
the context is unchanged). -/
theorem new_interflow_origin_spec {τ : Nat → Type} (ctx : Context τ) :
    (ctx.command = none → ctx.new_interflow_origin = none) ∧
    (∀ c, ctx.command = some c →
      ctx.new_interflow_origin =
        some (.Interflow c.flow_run_id c.node_id c.times)) := by
  constructor
  · intro h
    simp [Context.new_interflow_origin, h]
  · intro c h
    simp [Context.new_interflow_origin, h]

theorem new_interflow_origin_spec_witness :
    (Context.default (fun _ _ _ => .ok 0) :
        Context (fun _ => Unit)).new_interflow_origin =
      some (.Interflow Uuid.nil Uuid.nil 0) :=
  (new_interflow_origin_spec _).2 _ rfl

/-- C6: `request_signature` delegates the request `{pubkey, message,
timeout}` to the SignerService exactly once — its result is precisely one
round trip of the (budget-sharing) cloned handle, with no retry — and is
independent of whether a `CommandContext` is attached. -/
theorem request_signature_delegates_once {τ : Nat → Type} (ctx : Context τ)
    (pubkey : Pubkey) (message : Bytes) (timeout : Duration) :
    (ctx.request_signature pubkey message timeout =
      match ctx.signer.call
          { pubkey := pubkey, message := message, timeout := timeout } with
        | .ok r => .ok r.signature
        | .error e => .error e) ∧
    (∀ cmd, ({ ctx with command := cmd } : Context τ).request_signature
        pubkey message timeout =
      ctx.request_signature pubkey message timeout) ∧
    ctx.signer.clone = ctx.signer :=
  ⟨rfl, fun _ => rfl, rfl⟩

/-- C7: extension lookup returns `none` for a capability type with no
registered value and the exact registered value for one that is, for any
number of distinct types in one registry; the lookup is a pure function
of the registry (it never mutates it). -/
theorem extension_get_spec {τ : Nat → Type} (e : Extensions τ) :
    (∀ i, (∀ p ∈ e.store, p.1 ≠ i) → e.get i = none) ∧
    (∀ i (v : τ i), Sigma.mk i v ∈ e.store →
      (e.store.map Sigma.fst).Nodup → e.get i = some v) ∧
    (∀ (ctx : Context τ) (i : Nat), ctx.get i = ctx.extensions.get i) :=
  ⟨fun i h => lookupStore_eq_none e.store i h,
   fun i v hm hnd => lookupStore_mem_nodup e.store i v hm hnd,
   fun _ _ => rfl⟩

theorem extension_get_spec_witness :
    (⟨[⟨1, 10⟩, ⟨2, 20⟩]⟩ : Extensions (fun _ => Nat)).get 3 = none ∧
    (⟨[⟨1, 10⟩, ⟨2, 20⟩]⟩ : Extensions (fun _ => Nat)).get 1 = some 10 ∧
    (⟨[⟨1, 10⟩, ⟨2, 20⟩]⟩ : Extensions (fun _ => Nat)).get 2 = some 20 :=
  ⟨(extension_get_spec _).1 3 (by decide),
   (extension_get_spec _).2.1 1 10 (List.mem_cons_self _ _) (by decide),
   (extension_get_spec _).2.1 2 20
     (List.mem_cons_of_mem _ (List.mem_cons_self _ _)) (by decide)⟩

/-- C8: every `unimplemented` service handle fails every call with its
fixed configured error (`Other "unimplemented"` for the auth, signer and
execute stubs; `NotAllowed` for the `not_allowed` variant), and the
embedding is pure: no side effect and no work is performed. -/
theorem unimplemented_svc_fixed_error (reqJ : get_jwt.Request)
    (reqS : signer.SignatureRequest) (reqE : execute.Request) :
    get_jwt.unimplemented_svc.call reqJ =
      .error (get_jwt.Error.Other "unimplemented") ∧
    get_jwt.not_allowed.call reqJ = .error get_jwt.Error.NotAllowed ∧
    signer.unimplemented_svc.call reqS =
      .error (signer.Error.Other "unimplemented") ∧
    execute.unimplemented_svc.call reqE =
      .error (execute.Error.Other "unimplemented") :=
  ⟨rfl, rfl, rfl, rfl⟩

/-- C9: a retry decision either returns a policy whose counter is exactly
one less — possible only when the counter was positive and the result was
a Supabase error whose description contains `"Refresh Token"` — or no
retry at all; counters are `Nat`, hence non-negative, and never
increase. -/
theorem retry_policy_counter_invariant (p p' : get_jwt.RetryPolicy)
    (req : get_jwt.Request) (res : Except get_jwt.Error get_jwt.Response)
    (h : p.retry req res = some p') :
    p'.budget + 1 = p.budget ∧ 0 < p.budget ∧
      get_jwt.isRefreshTokenErr res = true := by
  unfold get_jwt.RetryPolicy.retry at h
  split at h
  · rename_i a d
    split at h
    · rename_i hc
      cases h
      refine ⟨Nat.succ_pred_eq_of_pos hc.2, hc.2, ?_⟩
      simp [get_jwt.isRefreshTokenErr, hc.1]
    · cases h
  · cases h

theorem retry_policy_counter_invariant_witness :
    (⟨1⟩ : get_jwt.RetryPolicy).budget + 1 =
      (⟨2⟩ : get_jwt.RetryPolicy).budget ∧
    0 < (⟨2⟩ : get_jwt.RetryPolicy).budget ∧
    get_jwt.isRefreshTokenErr
      (.error (.Supabase "invalid_grant" "Refresh Token Not Found")) =
      true :=
  retry_policy_counter_invariant ⟨2⟩ ⟨1⟩ ⟨0⟩
    (.error (.Supabase "invalid_grant" "Refresh Token Not Found"))
    (by decide)

/-- C10: in the admission model of a handle with concurrency bound `K`,
every reachable in-flight count is at most `K`; at the bound no acquire
step exists (a further caller suspends, without error), and as soon as
one call completes an acquire is enabled again; clones of a handle share
the same handle and hence the same budget. -/
theorem admission_bound_spec (K n : Nat) (h : AdmReach K n) :
    n ≤ K ∧
    ¬ AdmStep K K (K + 1) ∧
    (0 < K → AdmStep K (K - 1) K) ∧
    (∀ (Req Resp Err : Type) (svc : TowerClient Req Resp Err),
      svc.clone = svc) := by
  refine ⟨?_, ?_, ?_, fun _ _ _ _ => rfl⟩
  · induction h with
    | init => exact Nat.zero_le K
    | step hr hs ih =>
      cases hs with
      | acquire m hm => exact hm
      | release m => exact Nat.le_of_succ_le ih
  · intro hstep
    cases hstep with
    | acquire _ hm => exact absurd hm (lt_irrefl _)
  · intro hK
    have h1 : K - 1 + 1 = K := Nat.succ_pred_eq_of_pos hK
    have h2 := AdmStep.acquire (K := K) (K - 1) (Nat.sub_lt hK Nat.one_pos)
    rwa [h1] at h2

theorem admission_bound_spec_witness :
    (0 : Nat) ≤ 1 ∧
    ¬ AdmStep 1 1 2 ∧
    (0 < 1 → AdmStep 1 0 1) ∧
    (∀ (Req Resp Err : Type) (svc : TowerClient Req Resp Err),
      svc.clone = svc) :=
  admission_bound_spec 1 0 AdmReach.init
